import Mathlib

/-!
Verification of the data-visualizer map component
(src/data_visualizer/components.py, class DataMap) against its
natural-language specification.  The Python functions relevant to the
claims are shallowly embedded below: pure data transformations become Lean
functions, exceptions become `Option`/`Except` results, file-system state
becomes an explicit `FS` record, and Python floats are modelled by exact
rationals.
-/

set_option maxRecDepth 4000

namespace DataVisualizer

/-! ## Transect file parsing (`_create_transects_geojson`, lines 302-344) -/

/-- Characters of one line of a transect file.  Python iterates the file
line by line; the trailing newline of a line only ever lands in the fourth
(ignored) field, so lines are modelled newline-stripped. -/
abbrev Line := List Char

/-- Python `str.split(sep)` for a one-character separator, acting on the
character list of the string: splits at every occurrence of `sep`, keeps
empty fields, and yields `[[]]` for the empty string. -/
def splitChar (sep : Char) : List Char → List (List Char)
  | [] => [[]]
  | c :: rest =>
    let fs := splitChar sep rest
    if c = sep then [] :: fs
    else
      match fs with
      | [] => [[c]]
      | f :: fs' => (c :: f) :: fs'

/-- Numeric value of a string of decimal digit characters, as Python `int`
reads it. -/
def digitsToNat (ds : List Char) : Nat :=
  ds.foldl (fun a c => 10 * a + (c.toNat - 48)) 0

/-- Python `int("".join([char for char in point_id if char.isdigit()]))`
(line 318): keep the decimal digit characters of the point id and read them
as a natural number; `none` models the ValueError Python raises when the
join is empty.  (Python `isdigit` also accepts some non-ASCII digits;
ASCII digits suffice for this model.) -/
def extractTransectID (pointId : List Char) : Option Nat :=
  let ds := pointId.filter Char.isDigit
  if ds.isEmpty then none else some (digitsToNat ds)

/-- Model of Python `float(s)` on plain decimal literals: an optional sign,
an integer part and an optional fractional part with at least one digit in
total.  The exotic float syntax (exponents, inf/nan, surrounding
whitespace) is not exercised by the transect records this repository
parses.  The result is the exact rational value of the literal; `none`
models ValueError. -/
def parseDecimal (s : List Char) : Option ℚ :=
  let body : List Char :=
    match s with
    | '-' :: rest => rest
    | '+' :: rest => rest
    | rest => rest
  let neg : Bool :=
    match s with
    | '-' :: _ => true
    | _ => false
  let signed : ℚ → ℚ := fun q => if neg then -q else q
  match splitChar '.' body with
  | [intPart] =>
    if intPart ≠ [] ∧ intPart.all Char.isDigit then
      some (signed (digitsToNat intPart))
    else none
  | [intPart, fracPart] =>
    if (intPart ≠ [] ∨ fracPart ≠ []) ∧ intPart.all Char.isDigit ∧ fracPart.all Char.isDigit then
      some (signed ((digitsToNat intPart : ℚ) + (digitsToNat fracPart : ℚ) / (10 : ℚ) ^ fracPart.length))
    else none
  | _ => none

/-- A completed two-point LineString feature, exactly as
`_create_transects_geojson` appends it to `features_list`: the
"Transect ID" property, the coordinate list of the geometry, and the
"Start Point (meters)" / "End Point (meters)" string properties. -/
structure TransectFeature where
  transectID : Nat
  coordinates : List (ℚ × ℚ)
  startPoint : List Char
  endPoint : List Char
deriving DecidableEq, Repr

/-- The in-progress feature held in the Python variable `transect_feature`
between an odd record (start point) and the following even record. -/
structure PendingTransect where
  transectID : Nat
  startCoord : ℚ × ℚ
  startPoint : List Char
deriving DecidableEq, Repr

/-- Python `"({}, {})".format(x, y)` applied to the raw `x` and `y` field
strings (lines 329 and 333). -/
def formatPoint (x y : List Char) : List Char :=
  '(' :: (x ++ ',' :: ' ' :: (y ++ [')']))

/-- Python `[point_id, x, y, _] = line.split(",")` (line 314): the record's
first three fields when the line has exactly four comma-separated fields,
`none` (ValueError) otherwise. -/
def lineFields (line : Line) : Option (List Char × List Char × List Char) :=
  match splitChar ',' line with
  | [pointId, x, y, _] => some (pointId, x, y)
  | _ => none

/-- Shallow embedding of the line loop of `_create_transects_geojson`
(lines 311-337).  `pending` models the `transect_feature` variable, lines
are processed in order, and an overall `none` models an uncaught exception
aborting the conversion.  A pending start record left over at the end of
the file is dropped, exactly as in the source. -/
def parseTransectLines : Option PendingTransect → List Line → Option (List TransectFeature)
  | _, [] => some []
  | pending, line :: rest => do
    let (pointId, x, y) ← lineFields line
    let xv ← parseDecimal x
    let yv ← parseDecimal y
    match pending with
    | none => do
      let id ← extractTransectID pointId
      parseTransectLines (some ⟨id, (xv, yv), formatPoint x y⟩) rest
    | some p => do
      let feats ← parseTransectLines none rest
      pure ({ transectID := p.transectID
              coordinates := [p.startCoord, (xv, yv)]
              startPoint := p.startPoint
              endPoint := formatPoint x y } :: feats)

/-- Python `_create_transects_geojson`, seen as the list of LineString
features it writes to the GeoJSON file; `none` models the conversion
raising an exception. -/
def createTransectsGeojson (lines : List Line) : Option (List TransectFeature) :=
  parseTransectLines none lines

/-- Consecutive pairs: `pairUp [a, b, c, d, e] = [(a, b), (c, d)]`.  This is
the specification-level view of the parser's start/end alternation; a
trailing unpaired element is dropped. -/
def pairUp {α : Type _} : List α → List (α × α)
  | a :: b :: rest => (a, b) :: pairUp rest
  | _ => []

/-- Data the parser extracts from an odd-position (start) record: transect
id, parsed coordinate, and formatted start-point string. -/
def lineStartData (line : Line) : Option (Nat × (ℚ × ℚ) × List Char) := do
  let (pointId, x, y) ← lineFields line
  let xv ← parseDecimal x
  let yv ← parseDecimal y
  let id ← extractTransectID pointId
  pure (id, (xv, yv), formatPoint x y)

/-- Data the parser extracts from an even-position (end) record: parsed
coordinate and formatted end-point string. -/
def lineEndData (line : Line) : Option ((ℚ × ℚ) × List Char) := do
  let (_, x, y) ← lineFields line
  let xv ← parseDecimal x
  let yv ← parseDecimal y
  pure ((xv, yv), formatPoint x y)

/-- The feature built from a start record and the following end record. -/
def featureOfPair (l1 l2 : Line) : TransectFeature :=
  match lineStartData l1, lineEndData l2 with
  | some (id, c1, s), some (c2, e) =>
    { transectID := id, coordinates := [c1, c2], startPoint := s, endPoint := e }
  | _, _ => { transectID := 0, coordinates := [], startPoint := [], endPoint := [] }

/-- Well-formedness of the tail of a transect file; `expectStart` tells
whether the next line sits at an odd (start) position.  Every line must
have four fields whose x and y parse as floats, and a start line's point
id must contain a digit. -/
def wfTransectLines : Bool → List Line → Bool
  | _, [] => true
  | true, l :: rest => (lineStartData l).isSome && wfTransectLines false rest
  | false, l :: rest => (lineEndData l).isSome && wfTransectLines true rest

/-- Conditions under which one line survives the parser's loop body: it
splits into exactly four comma-separated fields, the second and third
fields parse as floats, and — when the line sits at an odd (start)
position — its point id contains at least one digit character. -/
def lineOk (line : Line) (isStart : Bool) : Bool :=
  match lineFields line with
  | some (pointId, x, y) =>
    (parseDecimal x).isSome && (parseDecimal y).isSome &&
      (!isStart || pointId.any Char.isDigit)
  | none => false

/-! ### Structural lemmas for the pairwise parse -/

/-- Induction on a list two elements at a time, mirroring the parser's
start/end alternation. -/
theorem twoStepInduction {α : Type _} {motive : List α → Prop}
    (nil : motive [])
    (single : ∀ a, motive [a])
    (cons2 : ∀ a b rest, motive rest → motive (a :: b :: rest)) :
    ∀ l, motive l
  | [] => nil
  | [a] => single a
  | a :: b :: rest => cons2 a b rest (twoStepInduction nil single cons2 rest)

theorem pairUp_length {α : Type _} : ∀ l : List α, (pairUp l).length = l.length / 2 := by
  intro l
  induction l using twoStepInduction with
  | nil => simp [pairUp]
  | single a => simp [pairUp]
  | cons2 a b rest ih =>
    show (pairUp rest).length + 1 = (rest.length + 1 + 1) / 2
    rw [ih]
    omega

theorem pairUp_map_getD {α β : Type _} (f : α × α → β) (dflt : α) :
    ∀ (l : List α) (k : Nat), k < l.length / 2 →
      ((pairUp l).map f).getD k (f (dflt, dflt))
        = f (l.getD (2 * k) dflt, l.getD (2 * k + 1) dflt) := by
  intro l
  induction l using twoStepInduction with
  | nil => intro k hk; simp at hk
  | single a =>
    intro k hk
    simp only [List.length_singleton] at hk
    omega
  | cons2 a b rest ih =>
    intro k hk
    match k with
    | 0 => simp [pairUp]
    | k + 1 =>
      have hk' : k < rest.length / 2 := by
        simp only [List.length_cons] at hk
        omega
      have := ih k hk'
      simpa [pairUp, Nat.mul_succ, List.getD_cons_succ] using this

theorem pairUp_dropLast_of_odd {α : Type _} :
    ∀ l : List α, l.length % 2 = 1 → pairUp l = pairUp l.dropLast := by
  intro l
  induction l using twoStepInduction with
  | nil => intro h; simp at h
  | single a => intro _; simp [pairUp]
  | cons2 a b rest ih =>
    intro h
    have hr : rest.length % 2 = 1 := by
      simp only [List.length_cons] at h
      omega
    rcases rest with _ | ⟨c, cs⟩
    · simp at hr
    · have := ih hr
      simp only [pairUp, List.dropLast] at this ⊢
      rw [this]

theorem extractTransectID_isSome (pid : List Char) :
    (extractTransectID pid).isSome = pid.any Char.isDigit := by
  rcases h : pid.filter Char.isDigit with _ | ⟨c, cs⟩
  · have hall : ∀ a ∈ pid, ¬(Char.isDigit a = true) := List.filter_eq_nil_iff.mp h
    have hany : pid.any Char.isDigit = false := by
      simp only [List.any_eq_false]
      exact hall
    simp [extractTransectID, h, hany]
  · have hc : c ∈ pid.filter Char.isDigit := h ▸ List.mem_cons_self c cs
    have hmem := List.mem_filter.mp hc
    have hany : pid.any Char.isDigit = true := List.any_eq_true.mpr ⟨c, hmem.1, hmem.2⟩
    simp [extractTransectID, h, hany]

theorem lineStartData_isSome (l : Line) : (lineStartData l).isSome = lineOk l true := by
  rcases hf : lineFields l with _ | ⟨pid, x, y⟩
  · simp [lineStartData, lineOk, hf]
  rcases hx : parseDecimal x with _ | xv
  · simp [lineStartData, lineOk, hf, hx]
  rcases hy : parseDecimal y with _ | yv
  · simp [lineStartData, lineOk, hf, hx, hy]
  rcases hid : extractTransectID pid with _ | id
  · simp [lineStartData, lineOk, hf, hx, hy, ← extractTransectID_isSome, hid]
  · simp [lineStartData, lineOk, hf, hx, hy, ← extractTransectID_isSome, hid]

theorem lineEndData_isSome (l : Line) : (lineEndData l).isSome = lineOk l false := by
  rcases hf : lineFields l with _ | ⟨pid, x, y⟩
  · simp [lineEndData, lineOk, hf]
  rcases hx : parseDecimal x with _ | xv
  · simp [lineEndData, lineOk, hf, hx]
  rcases hy : parseDecimal y with _ | yv
  · simp [lineEndData, lineOk, hf, hx, hy]
  simp [lineEndData, lineOk, hf, hx, hy]

/-- Under full well-formedness the parser returns precisely the features of
the consecutive record pairs, in input order. -/
theorem parseTransectLines_eq_of_wf :
    ∀ lines : List Line, wfTransectLines true lines = true →
      parseTransectLines none lines
        = some ((pairUp lines).map fun p => featureOfPair p.1 p.2) := by
  intro lines
  induction lines using twoStepInduction with
  | nil => intro _; rfl
  | single a =>
    intro h
    simp only [wfTransectLines, Bool.and_eq_true] at h
    rcases hf : lineFields a with _ | ⟨pid, x, y⟩
    · simp [lineStartData, hf] at h
    rcases hx : parseDecimal x with _ | xv
    · simp [lineStartData, hf, hx] at h
    rcases hy : parseDecimal y with _ | yv
    · simp [lineStartData, hf, hx, hy] at h
    rcases hid : extractTransectID pid with _ | id
    · simp [lineStartData, hf, hx, hy, hid] at h
    simp [parseTransectLines, hf, hx, hy, hid, pairUp]
  | cons2 a b rest ih =>
    intro h
    simp only [wfTransectLines, Bool.and_eq_true] at h
    obtain ⟨ha, hb, hrest⟩ := h
    rcases hf : lineFields a with _ | ⟨pid, x, y⟩
    · simp [lineStartData, hf] at ha
    rcases hx : parseDecimal x with _ | xv
    · simp [lineStartData, hf, hx] at ha
    rcases hy : parseDecimal y with _ | yv
    · simp [lineStartData, hf, hx, hy] at ha
    rcases hid : extractTransectID pid with _ | id
    · simp [lineStartData, hf, hx, hy, hid] at ha
    rcases hf2 : lineFields b with _ | ⟨pid2, x2, y2⟩
    · simp [lineEndData, hf2] at hb
    rcases hx2 : parseDecimal x2 with _ | xv2
    · simp [lineEndData, hf2, hx2] at hb
    rcases hy2 : parseDecimal y2 with _ | yv2
    · simp [lineEndData, hf2, hx2, hy2] at hb
    have hrec := ih hrest
    simp [parseTransectLines, hf, hx, hy, hid, hf2, hx2, hy2, hrec, pairUp,
      featureOfPair, lineStartData, lineEndData]

/-- The parser succeeds exactly on well-formed files. -/
theorem parseTransectLines_isSome_eq_wf :
    ∀ lines : List Line,
      (parseTransectLines none lines).isSome = wfTransectLines true lines := by
  intro lines
  induction lines using twoStepInduction with
  | nil => rfl
  | single a =>
    rcases hf : lineFields a with _ | ⟨pid, x, y⟩
    · simp [parseTransectLines, wfTransectLines, lineStartData, hf]
    rcases hx : parseDecimal x with _ | xv
    · simp [parseTransectLines, wfTransectLines, lineStartData, hf, hx]
    rcases hy : parseDecimal y with _ | yv
    · simp [parseTransectLines, wfTransectLines, lineStartData, hf, hx, hy]
    rcases hid : extractTransectID pid with _ | id
    · simp [parseTransectLines, wfTransectLines, lineStartData, hf, hx, hy, hid]
    simp [parseTransectLines, wfTransectLines, lineStartData, hf, hx, hy, hid]
  | cons2 a b rest ih =>
    rcases hf : lineFields a with _ | ⟨pid, x, y⟩
    · simp [parseTransectLines, wfTransectLines, lineStartData, hf]
    rcases hx : parseDecimal x with _ | xv
    · simp [parseTransectLines, wfTransectLines, lineStartData, hf, hx]
    rcases hy : parseDecimal y with _ | yv
    · simp [parseTransectLines, wfTransectLines, lineStartData, hf, hx, hy]
    rcases hid : extractTransectID pid with _ | id
    · simp [parseTransectLines, wfTransectLines, lineStartData, hf, hx, hy, hid]
    rcases hf2 : lineFields b with _ | ⟨pid2, x2, y2⟩
    · simp [parseTransectLines, wfTransectLines, lineStartData, lineEndData,
        hf, hx, hy, hid, hf2]
    rcases hx2 : parseDecimal x2 with _ | xv2
    · simp [parseTransectLines, wfTransectLines, lineStartData, lineEndData,
        hf, hx, hy, hid, hf2, hx2]
    rcases hy2 : parseDecimal y2 with _ | yv2
    · simp [parseTransectLines, wfTransectLines, lineStartData, lineEndData,
        hf, hx, hy, hid, hf2, hx2, hy2]
    cases hr : parseTransectLines none rest with
    | none =>
      rw [hr] at ih
      simp [parseTransectLines, wfTransectLines, lineStartData, lineEndData,
        hf, hx, hy, hid, hf2, hx2, hy2, hr, ← ih]
    | some feats =>
      rw [hr] at ih
      simp [parseTransectLines, wfTransectLines, lineStartData, lineEndData,
        hf, hx, hy, hid, hf2, hx2, hy2, hr, ← ih]

/-- Well-formedness, stated per line index: the line at 0-based index i is a
start record when i is even. -/
theorem wfTransectLines_true_iff :
    ∀ lines : List Line,
      (wfTransectLines true lines = true ↔
        ∀ i, i < lines.length → lineOk (lines.getD i []) (decide (i % 2 = 0)) = true) := by
  intro lines
  induction lines using twoStepInduction with
  | nil => simp [wfTransectLines]
  | single a =>
    simp only [wfTransectLines, Bool.and_eq_true, lineStartData_isSome, List.length_singleton]
    constructor
    · intro h i hi
      have hi0 : i = 0 := by omega
      subst hi0
      simpa using h.1
    · intro h
      refine ⟨by simpa using h 0 (by omega), trivial⟩
  | cons2 a b rest ih =>
    simp only [wfTransectLines, Bool.and_eq_true, lineStartData_isSome, lineEndData_isSome,
      List.length_cons]
    rw [ih]
    constructor
    · rintro ⟨ha, hb, hrest⟩ i hi
      match i with
      | 0 => simpa using ha
      | 1 => simpa using hb
      | (i + 2) =>
        have hi' : i < rest.length := by omega
        have := hrest i hi'
        simpa [Nat.add_mod] using this
    · intro h
      refine ⟨by simpa using h 0 (by omega), by simpa using h 1 (by omega), ?_⟩
      intro i hi
      have := h (i + 2) (by omega)
      simpa [Nat.add_mod] using this

/-! ### Claims C1, C7, C9 -/

/-- C1: a transect file in which every line is a well-formed four-field
record and whose record count N is even parses into exactly N/2 two-point
LineString features in input order: the k-th feature (0-based) is built
from records 2k and 2k+1, its transect id is the integer formed by the
digit characters of record 2k's point id, its coordinates are the parsed
(x, y) of record 2k followed by the parsed (x, y) of record 2k+1, and its
start/end string properties are the formatted raw input coordinates. -/
theorem transects_even_file_parses_pairwise (lines : List Line)
    (hwf : wfTransectLines true lines = true)
    (_heven : lines.length % 2 = 0) :
    createTransectsGeojson lines
        = some ((pairUp lines).map fun p => featureOfPair p.1 p.2)
      ∧ ((pairUp lines).map fun p => featureOfPair p.1 p.2).length = lines.length / 2
      ∧ (∀ k, k < lines.length / 2 →
          ((pairUp lines).map fun p => featureOfPair p.1 p.2).getD k (featureOfPair [] [])
            = featureOfPair (lines.getD (2 * k) []) (lines.getD (2 * k + 1) []))
      ∧ (∀ l1 l2 id c1 s c2 e,
          lineStartData l1 = some (id, c1, s) → lineEndData l2 = some (c2, e) →
          featureOfPair l1 l2
            = { transectID := id, coordinates := [c1, c2], startPoint := s, endPoint := e }) := by
  refine ⟨parseTransectLines_eq_of_wf lines hwf, ?_, ?_, ?_⟩
  · simp [pairUp_length]
  · intro k hk
    exact pairUp_map_getD (fun p => featureOfPair p.1 p.2) [] lines k hk
  · intro l1 l2 id c1 s c2 e h1 h2
    simp [featureOfPair, h1, h2]

/-- Demonstration file for C1: four well-formed records. -/
def evenDemoLines : List Line :=
  ["LC1,5,7,0".toList, "LC1,6,8,1".toList, "T2,0,1,0".toList, "T2,3,4,1".toList]

theorem transects_even_file_parses_pairwise_witness :
    createTransectsGeojson evenDemoLines
      = some ((pairUp evenDemoLines).map fun p => featureOfPair p.1 p.2) :=
  (transects_even_file_parses_pairwise evenDemoLines (by decide) (by decide)).1

/-- C7: a transect file with an odd number N of well-formed four-field
records parses without error into exactly N/2 (floored) features; the
trailing unmatched start record contributes no feature — the parsed pairs
are those of the file with its last record dropped. -/
theorem transects_odd_file_drops_trailing (lines : List Line)
    (hwf : wfTransectLines true lines = true)
    (hodd : lines.length % 2 = 1) :
    createTransectsGeojson lines
        = some ((pairUp lines).map fun p => featureOfPair p.1 p.2)
      ∧ ((pairUp lines).map fun p => featureOfPair p.1 p.2).length = lines.length / 2
      ∧ pairUp lines = pairUp lines.dropLast :=
  ⟨parseTransectLines_eq_of_wf lines hwf, by simp [pairUp_length],
    pairUp_dropLast_of_odd lines hodd⟩

/-- Demonstration file for C7: three well-formed records. -/
def oddDemoLines : List Line :=
  ["LC1,5,7,0".toList, "LC1,6,8,1".toList, "T2,0,1,0".toList]

theorem transects_odd_file_drops_trailing_witness :
    createTransectsGeojson oddDemoLines
      = some ((pairUp oddDemoLines).map fun p => featureOfPair p.1 p.2) :=
  (transects_odd_file_drops_trailing oddDemoLines (by decide) (by decide)).1

/-- C9: the conversion succeeds exactly when every line splits into four
comma-separated fields whose second and third fields parse as floats and
every odd-position (even 0-based index) record's point id contains a digit;
any violating line makes the whole conversion fail (the exception aborts
the file, no line is skipped). -/
theorem transect_parsing_total_iff (lines : List Line) :
    (createTransectsGeojson lines).isSome = true ↔
      ∀ i, i < lines.length → lineOk (lines.getD i []) (decide (i % 2 = 0)) = true := by
  rw [createTransectsGeojson, parseTransectLines_isSome_eq_wf]
  exact wfTransectLines_true_iff lines

/-- Demonstration file for C9: the second record has a malformed float. -/
def badDemoLines : List Line :=
  ["LC1,5,7,0".toList, "LC1,6q,8,1".toList, "T2,0,1,0".toList, "T2,3,4,1".toList]

theorem transect_parsing_total_iff_witness :
    (createTransectsGeojson badDemoLines).isSome = false := by
  have h := transect_parsing_total_iff badDemoLines
  by_contra hc
  have hTrue : (createTransectsGeojson badDemoLines).isSome = true := by
    revert hc
    cases (createTransectsGeojson badDemoLines).isSome <;> simp
  have := (h.mp hTrue) 1 (by decide)
  simp only [badDemoLines] at this
  exact absurd this (by decide)

/-! ## Click tracker and detail-table push (`_create_time_series_plot`,
lines 509-533 and 588-589)

The per-transect-file branch of the selection callback: the file's
Selection1D stream is reset to the empty selection before the click count
is examined; exactly one clicked index pushes a two-row start/end table
into `_clicked_transect_pipe` (and opens the modal); more than one clicked
index prints a diagnostic and does nothing else; zero clicked indices do
nothing. -/

/-- The data pushed through `_clicked_transect_pipe.event` for the clicked
path: the renamed Easting/Northing columns (one entry per vertex of the
clicked line), the broadcast "Transect ID" column, and the synthetic
"Point Type" column. -/
structure ClickedTransectTable where
  eastings : List ℚ
  northings : List ℚ
  transectIDs : List Nat
  pointTypes : List (List Char)
deriving DecidableEq, Repr

/-- The columns of the i-th path of the transect file's plot, renamed and
extended exactly as lines 522-531 do. -/
def mkClickedTransectTable (f : TransectFeature) : ClickedTransectTable where
  eastings := f.coordinates.map Prod.fst
  northings := f.coordinates.map Prod.snd
  transectIDs := f.coordinates.map fun _ => f.transectID
  pointTypes := ["start".toList, "end".toList]

/-- Outcome of the callback's branch for one transect file. -/
structure FileSelectionResult where
  newSelection : List Nat
  pushedTable : Option ClickedTransectTable
  diagnostic : Bool
  modalOpened : Bool
deriving DecidableEq, Repr

/-- Shallow embedding of the selection branch of `_create_time_series_plot`
for one registered transect file: `features` is the file's parsed line
layer (the paths of `self._created_plots[file]`, in feature order) and
`clicked` the Selection1D stream's index list.  `none` models the
IndexError of a clicked index outside the layer, which cannot arise from a
genuine tap. -/
def evalFileSelection (features : List TransectFeature) (clicked : List Nat) :
    Option FileSelectionResult :=
  match clicked with
  | [] => some { newSelection := [], pushedTable := none, diagnostic := false, modalOpened := false }
  | [i] =>
    (features[i]?).map fun f =>
      { newSelection := []
        pushedTable := some (mkClickedTransectTable f)
        diagnostic := false
        modalOpened := true }
  | _ :: _ :: _ =>
    some { newSelection := [], pushedTable := none, diagnostic := true, modalOpened := false }

/-- C2: with exactly one clicked segment index i, the callback pushes a
two-row table tagged start/end whose coordinate columns are the endpoints
of the i-th line feature of the file's parsed layer; with zero clicked
indices it pushes nothing; with more than one it pushes nothing and emits
a diagnostic; and in every case the file's selection state is reset to the
empty list. -/
theorem selection_callback_detail_table (features : List TransectFeature)
    (i : Nat) (p q : ℚ × ℚ) (hi : i < features.length)
    (hcoords : (features.get ⟨i, hi⟩).coordinates = [p, q]) :
    evalFileSelection features [i]
        = some { newSelection := []
                 pushedTable := some
                   { eastings := [p.1, q.1]
                     northings := [p.2, q.2]
                     transectIDs := [(features.get ⟨i, hi⟩).transectID,
                       (features.get ⟨i, hi⟩).transectID]
                     pointTypes := ["start".toList, "end".toList] }
                 diagnostic := false
                 modalOpened := true }
      ∧ evalFileSelection features []
          = some { newSelection := [], pushedTable := none,
                   diagnostic := false, modalOpened := false }
      ∧ (∀ clicked : List Nat, 2 ≤ clicked.length →
          evalFileSelection features clicked
            = some { newSelection := [], pushedTable := none,
                     diagnostic := true, modalOpened := false })
      ∧ (∀ clicked r, evalFileSelection features clicked = some r →
          r.newSelection = []) := by
  have hget : features[i]? = some (features.get ⟨i, hi⟩) :=
    List.getElem?_eq_getElem hi
  refine ⟨?_, rfl, ?_, ?_⟩
  · simp only [List.get_eq_getElem] at hcoords
    simp [evalFileSelection, hget, mkClickedTransectTable, hcoords]
  · intro clicked hlen
    match clicked with
    | c1 :: c2 :: rest => rfl
  · intro clicked r hr
    match clicked with
    | [] => simp [evalFileSelection] at hr; rw [← hr]
    | [j] =>
      simp only [evalFileSelection, Option.map_eq_some'] at hr
      obtain ⟨f, _, hf⟩ := hr
      rw [← hf]
    | c1 :: c2 :: rest => simp [evalFileSelection] at hr; rw [← hr]

/-- Demonstration layer for C2: the features of `evenDemoLines`. -/
def demoFeatures : List TransectFeature :=
  (pairUp evenDemoLines).map fun p => featureOfPair p.1 p.2

theorem selection_callback_detail_table_witness :
    evalFileSelection demoFeatures [1]
      = some { newSelection := []
               pushedTable := some
                 { eastings := [0, 3]
                   northings := [1, 4]
                   transectIDs := [2, 2]
                   pointTypes := ["start".toList, "end".toList] }
               diagnostic := false
               modalOpened := true } := by
  have h := selection_callback_detail_table demoFeatures 1 (0, 1) (3, 4)
    (by decide) (by decide)
  exact h.1

/-! ## Derived-artifact cache (`_convert_ascii_grid_data_into_geotiff`,
lines 245-256, and the .csv branch of `_create_data_plot`, lines 272-281) -/

/-- Name of the derived-data cache folder (`self._geodata_folder_name`). -/
def geodataFolderName : String := "GeoData"

/-- Python `category_geodata_dir_path` of `_create_data_plot` (line 270). -/
def categoryGeodataDirPath (dataDirPath category : String) : String :=
  dataDirPath ++ "/" ++ category ++ "/" ++ geodataFolderName

/-- The cached GeoJSON artifact path for a .csv/.txt point file (line 274). -/
def geojsonArtifactPath (dataDirPath category name : String) : String :=
  categoryGeodataDirPath dataDirPath category ++ "/" ++ name ++ ".geojson"

/-- The cached GeoTIFF artifact path for an .asc grid file (line 283). -/
def geotiffArtifactPath (dataDirPath category name : String) : String :=
  categoryGeodataDirPath dataDirPath category ++ "/" ++ name ++ ".tif"

/-- File-system state visible to the converters: file contents by path and
the set of existing directories. -/
structure FS where
  files : List (String × String)
  dirs : List String
deriving DecidableEq, Repr

def FS.readFile (fs : FS) (p : String) : Option String :=
  (fs.files.find? fun e => e.1 == p).map Prod.snd

def FS.fileExists (fs : FS) (p : String) : Bool :=
  fs.files.any fun e => e.1 == p

def FS.isDir (fs : FS) (p : String) : Bool :=
  fs.dirs.contains p

def FS.writeFile (fs : FS) (p c : String) : FS :=
  { files := (p, c) :: fs.files, dirs := fs.dirs }

def FS.mkdir (fs : FS) (p : String) : FS :=
  { files := fs.files, dirs := p :: fs.dirs }

/-- Shallow embedding of `_convert_ascii_grid_data_into_geotiff`
(lines 245-256): when the artifact already exists nothing happens;
otherwise the source is read, the GeoData directory created if absent, and
the converted content written at the artifact path.  `convert` abstracts
the rioxarray load/reproject/save of the grid contents; an overall `none`
models the exception of an unreadable source. -/
def convertAsciiGridIntoGeotiff (convert : String → String) (fs : FS)
    (srcPath geodataDir artPath : String) : Option FS :=
  if fs.fileExists artPath then some fs
  else
    match fs.readFile srcPath with
    | none => none
    | some content =>
      let fs1 := if fs.isDir geodataDir then fs else fs.mkdir geodataDir
      some (fs1.writeFile artPath (convert content))

/-- Shallow embedding of the .csv/.txt branch of `_create_data_plot`
(lines 274-279): the same skip-if-exists policy, with the directory
created before `_create_data_points_geojson` reads the source. -/
def ensurePointGeojson (convert : String → String) (fs : FS)
    (srcPath geodataDir artPath : String) : Option FS :=
  if fs.fileExists artPath then some fs
  else
    let fs1 := if fs.isDir geodataDir then fs else fs.mkdir geodataDir
    match fs1.readFile srcPath with
    | none => none
    | some content => some (fs1.writeFile artPath (convert content))

/-- C3: the derived artifact is addressed at
`<source folder>/GeoData/<source stem>.<ext>` for both artifact kinds;
conversion is skipped whenever the artifact path already exists; on first
write the GeoData directory is created if absent and the converted source
content is written; and running a conversion immediately after a
completed conversion changes nothing, so the on-disk artifact content
after the second call is identical to the content after the first. -/
theorem conversion_cache_policy (convert : String → String) (fs : FS)
    (dataDirPath category name srcPath geodataDir artPath content : String) :
    (geotiffArtifactPath dataDirPath category name
        = (dataDirPath ++ "/" ++ category) ++ "/" ++ "GeoData" ++ "/" ++ name ++ ".tif"
      ∧ geojsonArtifactPath dataDirPath category name
        = (dataDirPath ++ "/" ++ category) ++ "/" ++ "GeoData" ++ "/" ++ name ++ ".geojson")
    ∧ (fs.fileExists artPath = true →
        convertAsciiGridIntoGeotiff convert fs srcPath geodataDir artPath = some fs
        ∧ ensurePointGeojson convert fs srcPath geodataDir artPath = some fs)
    ∧ (fs.fileExists artPath = false → fs.readFile srcPath = some content →
        ∃ fs', convertAsciiGridIntoGeotiff convert fs srcPath geodataDir artPath = some fs'
          ∧ fs'.isDir geodataDir = true
          ∧ fs'.readFile artPath = some (convert content))
    ∧ (∀ fs', convertAsciiGridIntoGeotiff convert fs srcPath geodataDir artPath = some fs' →
        convertAsciiGridIntoGeotiff convert fs' srcPath geodataDir artPath = some fs')
    ∧ (∀ fs', ensurePointGeojson convert fs srcPath geodataDir artPath = some fs' →
        ensurePointGeojson convert fs' srcPath geodataDir artPath = some fs') := by
  have hwrite_exists : ∀ (g : FS) (c : String), (g.writeFile artPath c).fileExists artPath = true := by
    intro g c
    simp [FS.writeFile, FS.fileExists]
  refine ⟨⟨?_, ?_⟩, ?_, ?_, ?_, ?_⟩
  · simp [geotiffArtifactPath, categoryGeodataDirPath, geodataFolderName, String.append_assoc]
  · simp [geojsonArtifactPath, categoryGeodataDirPath, geodataFolderName, String.append_assoc]
  · intro h
    constructor <;> simp [convertAsciiGridIntoGeotiff, ensurePointGeojson, h]
  · intro h hr
    by_cases hd : fs.isDir geodataDir = true
    · refine ⟨(fs.writeFile artPath (convert content)), ?_, ?_, ?_⟩
      · simp [convertAsciiGridIntoGeotiff, h, hr, hd]
      · simp [FS.writeFile, FS.isDir] at hd ⊢
        exact hd
      · simp [FS.writeFile, FS.readFile]
    · refine ⟨((fs.mkdir geodataDir).writeFile artPath (convert content)), ?_, ?_, ?_⟩
      · simp [convertAsciiGridIntoGeotiff, h, hr, hd]
      · simp [FS.writeFile, FS.mkdir, FS.isDir]
      · simp [FS.writeFile, FS.readFile]
  · intro fs' hconv
    by_cases h : fs.fileExists artPath = true
    · simp only [convertAsciiGridIntoGeotiff, h, if_true, Option.some_inj] at hconv
      subst hconv
      simp [convertAsciiGridIntoGeotiff, h]
    · simp only [convertAsciiGridIntoGeotiff, Bool.not_eq_true] at hconv h
      rw [h] at hconv
      simp only [Bool.false_eq_true, if_false] at hconv
      cases hr : fs.readFile srcPath with
      | none => rw [hr] at hconv; simp at hconv
      | some c =>
        rw [hr] at hconv
        simp only [Option.some_inj] at hconv
        subst hconv
        simp [convertAsciiGridIntoGeotiff, hwrite_exists]
  · intro fs' hconv
    by_cases h : fs.fileExists artPath = true
    · simp only [ensurePointGeojson, h, if_true, Option.some_inj] at hconv
      subst hconv
      simp [ensurePointGeojson, h]
    · simp only [ensurePointGeojson, Bool.not_eq_true] at hconv h
      rw [h] at hconv
      simp only [Bool.false_eq_true, if_false] at hconv
      cases hr : (if fs.isDir geodataDir then fs else fs.mkdir geodataDir).readFile srcPath with
      | none => rw [hr] at hconv; simp at hconv
      | some c =>
        rw [hr] at hconv
        simp only [Option.some_inj] at hconv
        subst hconv
        simp [ensurePointGeojson, hwrite_exists]

/-- Demonstration state for C3: the artifact is absent, the source
present; the conjunct shown is the skip-on-second-call property. -/
def demoFS : FS := { files := [("d/c/n.asc", "grid")], dirs := [] }

theorem conversion_cache_policy_witness :
    ∃ fs', convertAsciiGridIntoGeotiff (fun s => s) demoFS "d/c/n.asc" "d/c/GeoData" "d/c/GeoData/n.tif" = some fs'
      ∧ fs'.isDir "d/c/GeoData" = true
      ∧ fs'.readFile "d/c/GeoData/n.tif" = some ((fun s => s) "grid") :=
  (conversion_cache_policy (fun s => s) demoFS "d" "c" "n" "d/c/n.asc" "d/c/GeoData"
      "d/c/GeoData/n.tif" "grid").2.2.1 (by decide) (by decide)

/-! ## Point-file column lookup (`_create_data_points_geojson`, lines
192-195) and the category update loop
(`_update_selected_categories_plot`, lines 624-644) -/

/-- Python `[latitude_col] = [col for col in dataframe.columns if col in cands]`:
the single matching column name; `none` models the ValueError of unpacking
a filter result whose length is not one. -/
def singleMatch (cols cands : List String) : Option String :=
  match cols.filter (fun c => cands.contains c) with
  | [c] => some c
  | _ => none

/-- Column lookup of `_create_data_points_geojson`: the latitude lookup
runs first, then the longitude lookup; either failing raises. -/
def createDataPointsGeojson (cols latCands longCands : List String) :
    Option (String × String) := do
  let lat ← singleMatch cols latCands
  let long ← singleMatch cols longCands
  pure (lat, long)

/-- The per-file loop of `_update_selected_categories_plot` over fresh
.csv files of a selected category, reduced to the conversions it runs:
files are processed in order and the names of successfully plotted files
collected; an uncaught ValueError from the column lookup aborts the loop,
so nothing after the raising file is processed.  The second component is
the raising file, if any. -/
def updateCategoriesLoop (latCands longCands : List String) :
    List (String × List String) → List String × Option String
  | [] => ([], none)
  | file :: rest =>
    match createDataPointsGeojson file.2 latCands longCands with
    | none => ([], some file.1)
    | some _ =>
      let out := updateCategoriesLoop latCands longCands rest
      (file.1 :: out.1, out.2)

/-- Counterexample to C4 as stated: with latitude candidates
["Lat", "Latitude"] and longitude candidates ["Long", "Longitude"], a
first file matching two latitude candidates makes the loop raise, and the
following well-formed file is never converted — processing does not
continue for the other files. -/
theorem ambiguous_column_counterexample :
    updateCategoriesLoop ["Lat", "Latitude"] ["Long", "Longitude"]
        [("bad.csv", ["Lat", "Latitude", "Longitude"]),
         ("good.csv", ["Latitude", "Longitude", "Value"])]
      = ([], some "bad.csv")
    ∧ "good.csv" ∉ (updateCategoriesLoop ["Lat", "Latitude"] ["Long", "Longitude"]
        [("bad.csv", ["Lat", "Latitude", "Longitude"]),
         ("good.csv", ["Latitude", "Longitude", "Value"])]).1 := by
  constructor <;> decide

theorem singleMatch_isSome_iff (cols cands : List String) :
    (singleMatch cols cands).isSome = true ↔
      (cols.filter fun c => cands.contains c).length = 1 := by
  unfold singleMatch
  rcases h : cols.filter (fun c => cands.contains c) with _ | ⟨c, cs⟩
  · simp
  · rcases cs with _ | ⟨c2, cs2⟩ <;> simp

/-- C4 (amended): conversion of a tabular point file succeeds exactly when
exactly one column name is in the latitude-candidate list and exactly one
is in the longitude-candidate list; a zero or multiple match makes the
unpacking raise an uncaught ValueError which aborts the category update
loop: files before the failing one are plotted, the failing file and all
files after it are not. -/
theorem ambiguous_column_aborts_loop (latCands longCands cols : List String)
    (pre post : List (String × List String)) (bad : String × List String)
    (hpre : ∀ f ∈ pre, (createDataPointsGeojson f.2 latCands longCands).isSome = true)
    (hbad : createDataPointsGeojson bad.2 latCands longCands = none) :
    ((createDataPointsGeojson cols latCands longCands).isSome = true ↔
        ((cols.filter fun c => latCands.contains c).length = 1
          ∧ (cols.filter fun c => longCands.contains c).length = 1))
      ∧ updateCategoriesLoop latCands longCands (pre ++ bad :: post)
          = (pre.map Prod.fst, some bad.1) := by
  constructor
  · rw [← singleMatch_isSome_iff, ← singleMatch_isSome_iff]
    cases hlat : singleMatch cols latCands with
    | none => simp [createDataPointsGeojson, hlat]
    | some lat =>
      cases hlong : singleMatch cols longCands with
      | none => simp [createDataPointsGeojson, hlat, hlong]
      | some long => simp [createDataPointsGeojson, hlat, hlong]
  · induction pre with
    | nil => simp [updateCategoriesLoop, hbad]
    | cons f fs ih =>
      have hf := hpre f (List.mem_cons_self f fs)
      rcases hsome : createDataPointsGeojson f.2 latCands longCands with _ | v
      · rw [hsome] at hf; simp at hf
      · have ih' := ih fun g hg => hpre g (List.mem_cons_of_mem f hg)
        simp [updateCategoriesLoop, hsome, ih']

theorem ambiguous_column_aborts_loop_witness :
    updateCategoriesLoop ["Lat", "Latitude"] ["Long", "Longitude"]
        ([("ok.csv", ["Lat", "Long", "Value"])]
          ++ ("bad.csv", ["Lat", "Latitude", "Longitude"])
            :: [("late.csv", ["Lat", "Long"])])
      = ([("ok.csv", ["Lat", "Long", "Value"])].map Prod.fst, some "bad.csv") :=
  (ambiguous_column_aborts_loop ["Lat", "Latitude"] ["Long", "Longitude"] ["Lat", "Long"]
      [("ok.csv", ["Lat", "Long", "Value"])] [("late.csv", ["Lat", "Long"])]
      ("bad.csv", ["Lat", "Latitude", "Longitude"])
      (by decide) (by decide)).2

/-! ## Along-transect extraction (`_get_data_along_transect`, lines 412-471) -/

/-- One cell of the clipped raster, as a row of
`clipped_dataset.to_dataframe().reset_index()`: projected x and y of the
cell and the data value. -/
structure RasterSample where
  x : ℚ
  y : ℚ
  val : ℚ
deriving DecidableEq, Repr

/-- One row of the dataframe `_get_data_along_transect` returns: the
renamed Easting/Northing columns, the data value, and the squared
distance from the transect's start point; the distance column itself is
the square root `TransectRow.dist`. -/
structure TransectRow where
  x : ℚ
  y : ℚ
  val : ℚ
  dist2 : ℚ
deriving DecidableEq, Repr

/-- Row built from one surviving sample (lines 459-467): shapely's
`point.distance(transect_start_point)` is the Euclidean distance, carried
here through its square. -/
def rowOfSample (transectStart : ℚ × ℚ) (s : RasterSample) : TransectRow :=
  { x := s.x, y := s.y, val := s.val
    dist2 := (s.x - transectStart.1) ^ 2 + (s.y - transectStart.2) ^ 2 }

/-- The distance column value of a row, in the raster's projected units. -/
noncomputable def TransectRow.dist (r : TransectRow) : ℝ :=
  Real.sqrt (r.dist2 : ℝ)

/-- Euclidean distance between two projected points. -/
noncomputable def euclidDist (p q : ℚ × ℚ) : ℝ :=
  Real.sqrt (((p.1 - q.1) ^ 2 + (p.2 - q.2) ^ 2 : ℚ) : ℝ)

/-- Outcome of `_get_data_along_transect`: the returned dataframe (or
`None`) and the diagnostics printed. -/
structure ExtractOutcome where
  result : Option (List TransectRow)
  diagnostics : List String
deriving DecidableEq, Repr

/-- Shallow embedding of `_get_data_along_transect` (lines 428-471) once
the cached GeoTIFF has been ensured.  `ext` is the source extension and
`clip` the clipped raster: `none` models `rio.clip` raising ValueError
because the transect does not intersect the raster's extent, `some
samples` the cells of a successful clip.  A raster source drops the rows
whose value equals the declared nodata sentinel and attaches each
remaining row's distance from the transect's start point; a failed clip
returns `None` with no diagnostic; a non-raster extension returns `None`
with a diagnostic. -/
def getDataAlongTransect (ext : String) (clip : Option (List RasterSample))
    (noDataVal : ℚ) (transectStart : ℚ × ℚ) : ExtractOutcome :=
  if ext = ".asc" then
    match clip with
    | none => { result := none, diagnostics := [] }
    | some samples =>
      { result := some ((samples.filter fun s => decide (s.val ≠ noDataVal)).map
          (rowOfSample transectStart))
        diagnostics := [] }
  else
    { result := none
      diagnostics := ["Error extracting data along a transect: file format not supported"] }

/-- The `if clipped_dataframe is not None` guard of the caller
(lines 544-577): only files whose extraction returned a dataframe
contribute a plot to the time-series overlay. -/
def timeSeriesContributions (extract : String → Option (List TransectRow))
    (dataFiles : List String) : List (String × List TransectRow) :=
  dataFiles.filterMap fun f => (extract f).map fun rows => (f, rows)

/-- C5: for a raster source whose clip succeeds, the returned table keeps
no row whose value equals the nodata sentinel; every row's distance
column equals the Euclidean distance from the row's projected point to
the transect's start point; and distance from start is monotone along the
transect line: of two rows lying on the transect ray at parameters
0 ≤ t1 ≤ t2, the second row is at least as far from the start. -/
theorem data_along_transect_rows (samples : List RasterSample) (noDataVal : ℚ)
    (transectStart dir : ℚ × ℚ) :
    (∀ r ∈ ((getDataAlongTransect ".asc" (some samples) noDataVal transectStart).result.getD []),
        r.val ≠ noDataVal)
    ∧ (∀ r ∈ ((getDataAlongTransect ".asc" (some samples) noDataVal transectStart).result.getD []),
        TransectRow.dist r = euclidDist (r.x, r.y) transectStart)
    ∧ (∀ r1 ∈ ((getDataAlongTransect ".asc" (some samples) noDataVal transectStart).result.getD []),
       ∀ r2 ∈ ((getDataAlongTransect ".asc" (some samples) noDataVal transectStart).result.getD []),
        ∀ t1 t2 : ℚ, 0 ≤ t1 → t1 ≤ t2 →
        (r1.x, r1.y) = (transectStart.1 + t1 * dir.1, transectStart.2 + t1 * dir.2) →
        (r2.x, r2.y) = (transectStart.1 + t2 * dir.1, transectStart.2 + t2 * dir.2) →
        TransectRow.dist r1 ≤ TransectRow.dist r2) := by
  have htable : (getDataAlongTransect ".asc" (some samples) noDataVal transectStart).result.getD []
      = (samples.filter fun s => decide (s.val ≠ noDataVal)).map (rowOfSample transectStart) := by
    simp [getDataAlongTransect]
  rw [htable]
  have hform : ∀ r ∈ (samples.filter fun s => decide (s.val ≠ noDataVal)).map
      (rowOfSample transectStart),
      r.dist2 = (r.x - transectStart.1) ^ 2 + (r.y - transectStart.2) ^ 2 := by
    intro r hr
    simp only [List.mem_map] at hr
    obtain ⟨s, _, rfl⟩ := hr
    simp [rowOfSample]
  refine ⟨?_, ?_, ?_⟩
  · intro r hr
    simp only [List.mem_map] at hr
    obtain ⟨s, hs, rfl⟩ := hr
    have hs' := List.of_mem_filter hs
    simpa [rowOfSample] using of_decide_eq_true hs'
  · intro r hr
    have := hform r hr
    simp [TransectRow.dist, euclidDist, this]
  · intro r1 hr1 r2 hr2 t1 t2 ht0 ht12 hline1 hline2
    rw [Prod.mk.injEq] at hline1 hline2
    obtain ⟨hx1, hy1⟩ := hline1
    obtain ⟨hx2, hy2⟩ := hline2
    have e1 : r1.dist2 = t1 ^ 2 * (dir.1 ^ 2 + dir.2 ^ 2) := by
      rw [hform r1 hr1, hx1, hy1]; ring
    have e2 : r2.dist2 = t2 ^ 2 * (dir.1 ^ 2 + dir.2 ^ 2) := by
      rw [hform r2 hr2, hx2, hy2]; ring
    have hle : r1.dist2 ≤ r2.dist2 := by
      rw [e1, e2]
      have hK : (0 : ℚ) ≤ dir.1 ^ 2 + dir.2 ^ 2 := by positivity
      have ht : t1 ^ 2 ≤ t2 ^ 2 := by nlinarith
      exact mul_le_mul_of_nonneg_right ht hK
    exact Real.sqrt_le_sqrt (by exact_mod_cast hle)

/-- C6: a raster source whose clip geometry does not intersect the
raster's extent yields `None` with no diagnostic, and the caller's guard
treats the missing result as no contribution: such a file never appears
among the time-series contributions. -/
theorem no_overlap_is_silent (noDataVal : ℚ) (transectStart : ℚ × ℚ)
    (extract : String → Option (List TransectRow)) (dataFiles : List String) (f : String) :
    getDataAlongTransect ".asc" none noDataVal transectStart
        = { result := none, diagnostics := [] }
    ∧ (extract f = none →
        f ∉ (timeSeriesContributions extract dataFiles).map Prod.fst) := by
  refine ⟨rfl, ?_⟩
  intro hnone hcontra
  simp only [timeSeriesContributions, List.mem_map, List.mem_filterMap] at hcontra
  obtain ⟨⟨g, rows⟩, ⟨g', _, hmap⟩, hfst⟩ := hcontra
  rw [Option.map_eq_some'] at hmap
  obtain ⟨a, ha, hpair⟩ := hmap
  have hg : g' = g := (Prod.mk.injEq .. ▸ hpair).1
  have hgf : g = f := hfst
  rw [hg, hgf] at ha
  rw [ha] at hnone
  exact Option.noConfusion hnone

theorem no_overlap_is_silent_witness :
    getDataAlongTransect ".asc" none (-9999) (0, 0)
      = { result := none, diagnostics := [] } :=
  (no_overlap_is_silent (-9999) (0, 0) (fun _ => none) ["dem1.asc"] "dem1.asc").1

/-! ## Plot memoisation by bare filename (`_created_plots`) -/

/-- What `_create_data_plot` / `_create_path_plot` store in
`self._created_plots`: enough of the created plot to identify which
source file it renders. -/
structure PlotInfo where
  sourcePath : String
  category : String
deriving DecidableEq, Repr

/-- The plot `_create_data_plot` builds for a file of a data category
(line 267: `file_path = data_dir + "/" + category + "/" + filename`). -/
def createDataPlotEntry (dataDirPath filename category : String) : PlotInfo :=
  { sourcePath := dataDirPath ++ "/" ++ category ++ "/" ++ filename
    category := category }

/-- The plot `_create_path_plot` builds for a transect file (line 373). -/
def createPathPlotEntry (dataDirPath filename : String) : PlotInfo :=
  { sourcePath := dataDirPath ++ "/" ++ "Transects" ++ "/" ++ filename
    category := "Transects" }

/-- The `if file not in self._created_plots: self._create_data_plot(file,
category)` step of `_update_selected_categories_plot` (lines 633-635):
the memo is keyed by the bare filename only. -/
def ensureDataPlot (dataDirPath : String) (plots : List (String × PlotInfo))
    (filename category : String) : List (String × PlotInfo) :=
  if plots.any fun e => e.1 == filename then plots
  else (filename, createDataPlotEntry dataDirPath filename category) :: plots

/-- The corresponding step of `_update_selected_transects_plot`
(lines 664-666), writing into the same dictionary under the same key. -/
def ensurePathPlot (dataDirPath : String) (plots : List (String × PlotInfo))
    (filename : String) : List (String × PlotInfo) :=
  if plots.any fun e => e.1 == filename then plots
  else (filename, createPathPlotEntry dataDirPath filename) :: plots

/-- Dictionary lookup `self._created_plots[file]`. -/
def plotsLookup (plots : List (String × PlotInfo)) (filename : String) : Option PlotInfo :=
  (plots.find? fun e => e.1 == filename).map Prod.snd

/-- C8: the plot memo is keyed by the bare filename, not by path or
(category, filename).  Once a plot exists under a filename, referencing a
same-named file from any other category — or from the Transects folder —
creates nothing: the memo is unchanged, the lookup still returns the
first file's plot, and that plot renders the first category's data, which
differs from the second category's. -/
theorem created_plots_keyed_by_filename (dataDirPath filename c1 c2 : String)
    (hne : c1 ≠ c2) :
    (plotsLookup (ensureDataPlot dataDirPath [] filename c1) filename
        = some (createDataPlotEntry dataDirPath filename c1))
    ∧ (∀ m, (m.any fun e => e.1 == filename) = true →
        ensureDataPlot dataDirPath m filename c2 = m
        ∧ ensurePathPlot dataDirPath m filename = m)
    ∧ (plotsLookup
          (ensureDataPlot dataDirPath (ensureDataPlot dataDirPath [] filename c1) filename c2)
          filename
        = some (createDataPlotEntry dataDirPath filename c1))
    ∧ createDataPlotEntry dataDirPath filename c1 ≠ createDataPlotEntry dataDirPath filename c2 := by
  have h1 : ensureDataPlot dataDirPath [] filename c1
      = [(filename, createDataPlotEntry dataDirPath filename c1)] := by
    simp [ensureDataPlot]
  refine ⟨?_, ?_, ?_, ?_⟩
  · rw [h1]
    simp [plotsLookup]
  · intro m hm
    constructor <;> simp [ensureDataPlot, ensurePathPlot, hm]
  · rw [h1]
    have hm : ([(filename, createDataPlotEntry dataDirPath filename c1)].any
        fun e => e.1 == filename) = true := by simp
    simp [ensureDataPlot, hm, plotsLookup]
  · intro heq
    exact hne (congrArg PlotInfo.category heq)

theorem created_plots_keyed_by_filename_witness :
    plotsLookup
        (ensureDataPlot "./data/Elwha"
          (ensureDataPlot "./data/Elwha" [] "july2022.csv" "Water Level")
          "july2022.csv" "Bathymetry")
        "july2022.csv"
      = some (createDataPlotEntry "./data/Elwha" "july2022.csv" "Water Level") :=
  (created_plots_keyed_by_filename "./data/Elwha" "july2022.csv" "Water Level" "Bathymetry"
    (by decide)).2.2.1

/-! ## Constructor colour assignment (`DataMap.__init__`, lines 167-181) -/

/-- The option list of the transect multichoice widget (line 162): the
transect files plus the fixed "Create My Own Transect" entry, so the list
is never empty. -/
def transectsMultichoiceOptions (allTransectFiles : List String) : List String :=
  allTransectFiles ++ ["Create My Own Transect"]

/-- The transect colour loop (lines 180-181): each option is coloured with
`palette_colors[(len(category) + i) % total_palette_colors]`, where
`category` is whatever name the preceding per-category loop left bound —
the last-listed category.  With no categories the name was never bound and
the loop's first iteration raises NameError (`none`).  A colour is
represented by its index into the eight-colour Bokeh palette. -/
def assignTransectColorIdxs (allCategories transectOptions : List String) :
    Option (List (String × Nat)) :=
  match transectOptions with
  | [] => some []
  | _ :: _ =>
    match allCategories.getLast? with
    | none => none
    | some lastCategory =>
      some (transectOptions.enum.map fun p => (p.2, (lastCategory.length + p.1) % 8))

/-- The constructor's transect colour stage, over the widget options as
built at line 162. -/
def dataMapInitTransectColors (allCategories allTransectFiles : List String) :
    Option (List (String × Nat)) :=
  assignTransectColorIdxs allCategories (transectsMultichoiceOptions allTransectFiles)

/-- C10: each transect option's colour is the palette entry at index
(len(c) + i) mod 8, where c is the last-listed category name left bound by
the preceding loop; with zero category subfolders the constructor raises
NameError (the transect option list is never empty), and with categories
present the transect colours depend on the character length of the
last-listed category's name. -/
theorem transect_colors_depend_on_last_category
    (allCategories allTransectFiles : List String) :
    (allCategories = [] →
        dataMapInitTransectColors allCategories allTransectFiles = none)
    ∧ (∀ lastCategory, allCategories.getLast? = some lastCategory →
        dataMapInitTransectColors allCategories allTransectFiles
          = some ((transectsMultichoiceOptions allTransectFiles).enum.map fun p =>
              (p.2, (lastCategory.length + p.1) % 8))) := by
  constructor
  · intro h
    subst h
    rcases he : transectsMultichoiceOptions allTransectFiles with _ | ⟨o, os⟩
    · exact absurd he (by simp [transectsMultichoiceOptions])
    · simp [dataMapInitTransectColors, assignTransectColorIdxs, he]
  · intro lastCategory hlast
    rcases he : transectsMultichoiceOptions allTransectFiles with _ | ⟨o, os⟩
    · exact absurd he (by simp [transectsMultichoiceOptions])
    · simp [dataMapInitTransectColors, assignTransectColorIdxs, he, hlast]

theorem transect_colors_depend_on_last_category_witness :
    dataMapInitTransectColors [] ["ew_lines.txt"] = none :=
  (transect_colors_depend_on_last_category [] ["ew_lines.txt"]).1 rfl

end DataVisualizer
